import Mathlib

/-!
Verification of the PGB event-scheduler backend's department-permissions
routes (src/routes/departmentPermissions.ts) and of the server file's
CORS callbacks, presence map and cleanup endpoint (src/unnamed/part_000).

JavaScript runtime values that can appear in a permissions payload or in a
stored document field are embedded as `JSValue`; the document store is an
association list from department name to record, with Mongo's
findOne / findOneAndUpdate(upsert) modelled as first-match lookup and
first-match replacement (insert on miss).
-/

/-- A JavaScript runtime value as it can appear in a JSON permissions field:
a boolean, string, number, null, or an absent field (undefined). -/
inductive JSValue where
  | vBool : Bool → JSValue
  | vStr : String → JSValue
  | vNum : Int → JSValue
  | vNull : JSValue
  | vUndefined : JSValue
deriving DecidableEq, Repr

/-- JavaScript truthiness of a `JSValue` (used by the `value || false` defaults). -/
def JSValue.truthy : JSValue → Bool
  | .vBool b => b
  | .vStr s => !(s == "")
  | .vNum n => !(n == 0)
  | .vNull => false
  | .vUndefined => false

/-- Whether `typeof value === 'boolean'` holds. -/
def JSValue.isBoolean : JSValue → Bool
  | .vBool _ => true
  | _ => false

/-- JavaScript `value || false`: the value itself when truthy, else the literal `false`. -/
def jsOrFalse (v : JSValue) : JSValue :=
  if v.truthy then v else .vBool false

/-- The five permission fields of a payload or stored document.  A field that
is absent from the JSON object or document is `vUndefined` (matching what
destructuring / property access yields in JavaScript). -/
structure PermFields where
  myRequirements : JSValue
  manageLocation : JSValue
  myCalendar : JSValue
  allEvents : JSValue
  taggedDepartments : JSValue
deriving DecidableEq, Repr

/-- The body's `permissions` value: either a non-object JavaScript value
(undefined, null, boolean, string, number — all rejected by the
`!permissions || typeof permissions !== 'object'` guard) or an object with
its five (possibly absent) fields. -/
inductive PermPayload where
  | prim : JSValue → PermPayload
  | obj : PermFields → PermPayload
deriving DecidableEq, Repr

/-- A stored DepartmentPermissions document (minus the department key, which
is the association-list key): the permissions subdocument and the updater. -/
structure PermEntry where
  perms : PermFields
  updatedBy : Option String
deriving DecidableEq, Repr

/-- The document store for DepartmentPermissions: one association-list cell
per document, keyed by department name. -/
abbrev Store := List (String × PermEntry)

/-- `DepartmentPermissions.findOne({ department })`: first record whose key
matches, if any. -/
def findOne (store : Store) (d : String) : Option PermEntry :=
  match store with
  | [] => none
  | (k, e) :: rest => if k = d then some e else findOne rest d

/-- `findOneAndUpdate({ department }, doc, { upsert: true })`: replace the
first record with this key, or insert a new record when none exists. -/
def upsert (store : Store) (d : String) (e : PermEntry) : Store :=
  match store with
  | [] => [(d, e)]
  | (k, e') :: rest => if k = d then (d, e) :: rest else (k, e') :: upsert rest d e

/-- `findOneAndUpdate({ department }, updates)` without upsert, as used by the
GET handler's backfill: set the permissions fields of the existing record (the
Mongo update names only the changed dot-paths; on the embedded record this
equals storing the merged fields object); no record is created on a miss. -/
def updateFields (store : Store) (d : String) (p : PermFields) : Store :=
  match store with
  | [] => []
  | (k, e) :: rest =>
    if k = d then (k, { e with perms := p }) :: rest
    else (k, e) :: updateFields rest d p

/-- The all-false permissions object synthesized by the GET handler for a
department with no stored record. -/
def defaultPerms : PermFields :=
  { myRequirements := .vBool false
    manageLocation := .vBool false
    myCalendar := .vBool false
    allEvents := .vBool false
    taggedDepartments := .vBool false }

/-- The GET handler's backward-compatibility merge for one field:
`typeof field === 'undefined'` is replaced by `false`, anything else kept. -/
def backfillField (v : JSValue) : JSValue :=
  if v = .vUndefined then .vBool false else v

/-- The GET handler's in-memory merge: the three newer fields (myCalendar,
allEvents, taggedDepartments) are set to `false` when absent; the two
original fields are not touched. -/
def backfillPerms (p : PermFields) : PermFields :=
  { p with
    myCalendar := backfillField p.myCalendar
    allEvents := backfillField p.allEvents
    taggedDepartments := backfillField p.taggedDepartments }

/-- The GET handler's `needsUpdate` flag: set when any of the three newer
fields is absent from the stored document. -/
def backfillNeeded (p : PermFields) : Bool :=
  decide (p.myCalendar = .vUndefined) || decide (p.allEvents = .vUndefined)
    || decide (p.taggedDepartments = .vUndefined)

/-- Result of the `GET /:department` handler: HTTP status, the `success` flag,
the permissions object placed in `data`, and the store after the request
(capturing any backfill write). -/
structure GetResponse where
  status : Nat
  success : Bool
  perms : PermFields
  storeAfter : Store
deriving DecidableEq, Repr

/-- The `GET /:department` handler (src/routes/departmentPermissions.ts,
lines 8-69), non-error path: when no record exists it responds with the
synthesized all-false object and performs no write; when a record exists it
defaults the three newer fields (myCalendar, allEvents, taggedDepartments)
to `false` when absent and, if any was absent, writes the backfilled fields
back with `findOneAndUpdate`. -/
def getDepartment (store : Store) (d : String) : GetResponse :=
  match findOne store d with
  | none =>
    { status := 200, success := true, perms := defaultPerms, storeAfter := store }
  | some entry =>
    let merged := backfillPerms entry.perms
    let store2 :=
      if backfillNeeded entry.perms then updateFields store d merged else store
    { status := 200, success := true, perms := merged, storeAfter := store2 }

/-- Byte-wise comparison of character lists, embedding the lexicographic
order Mongo's `sort({ department: 1 })` applies to the department key. -/
def charListLe : List Char → List Char → Bool
  | [], _ => true
  | _ :: _, [] => false
  | a :: as, b :: bs =>
    if a.toNat < b.toNat then true
    else if b.toNat < a.toNat then false
    else charListLe as bs

/-- Lexicographic order on department names. -/
def strLe (a b : String) : Bool := charListLe a.data b.data

/-- Stable insertion into a list sorted by department name. -/
def insertByDepartment (a : String × PermEntry) :
    List (String × PermEntry) → List (String × PermEntry)
  | [] => [a]
  | b :: rest =>
    if strLe a.1 b.1 then a :: b :: rest else b :: insertByDepartment a rest

/-- `.sort({ department: 1 })`: the records sorted by department name. -/
def sortByDepartment : List (String × PermEntry) → List (String × PermEntry)
  | [] => []
  | a :: rest => insertByDepartment a (sortByDepartment rest)

/-- The `GET /` (all departments) handler (src/routes/departmentPermissions.ts,
lines 72-89), non-error path: returns every stored record sorted by
department name, exactly as stored (no defaulting, no backfill), and leaves
the store untouched. -/
def getAllDepartments (store : Store) : List (String × PermEntry) × Store :=
  (sortByDepartment store, store)

/-- Result of the `PUT /:department` handler: either a 400 validation
rejection with its message, or a 200 success carrying the upserted record. -/
inductive PutResult where
  | badRequest : String → PutResult
  | ok : PermEntry → PutResult
deriving DecidableEq, Repr

/-- The `PUT /:department` handler (src/routes/departmentPermissions.ts,
lines 92-150), non-error path: reject a non-object payload
(`!permissions || typeof permissions !== 'object'`) with 400, reject a
payload whose myRequirements, manageLocation or myCalendar is not a boolean
with 400 (performing no write in either case), and otherwise upsert the
record with `allEvents || false` and `taggedDepartments || false` defaults,
recording the authenticated user as updater. -/
def putDepartment (store : Store) (d : String) (payload : PermPayload)
    (userId : String) : PutResult × Store :=
  match payload with
  | .prim _ => (.badRequest "Invalid permissions data", store)
  | .obj f =>
    if !f.myRequirements.isBoolean || !f.manageLocation.isBoolean
        || !f.myCalendar.isBoolean then
      (.badRequest "Permission values must be boolean", store)
    else
      let entry : PermEntry :=
        { perms :=
            { myRequirements := f.myRequirements
              manageLocation := f.manageLocation
              myCalendar := f.myCalendar
              allEvents := jsOrFalse f.allEvents
              taggedDepartments := jsOrFalse f.taggedDepartments }
          updatedBy := some userId }
      (.ok entry, upsert store d entry)

/-- The `DELETE /:department` handler (src/routes/departmentPermissions.ts,
lines 153-193), non-error path: upsert the record with all five flags set to
the literal `true`, recording the authenticated user as updater, and return
the stored record. -/
def deleteDepartment (store : Store) (d : String) (userId : String) :
    PermEntry × Store :=
  let entry : PermEntry :=
    { perms :=
        { myRequirements := .vBool true
          manageLocation := .vBool true
          myCalendar := .vBool true
          allEvents := .vBool true
          taggedDepartments := .vBool true }
      updatedBy := some userId }
  (entry, upsert store d entry)

/-- Outcome of a CORS origin callback: accept, or fail with the error
message passed to the callback. -/
inductive CorsDecision where
  | allow : CorsDecision
  | blocked : String → CorsDecision
deriving DecidableEq, Repr

/-- The Socket.IO CORS origin callback (src/unnamed/part_000, lines 46-54):
a falsy origin (header absent, or the empty string) is accepted
unconditionally; otherwise the origin must be in the allow-list
(`allowedOrigins.indexOf(origin) !== -1`). -/
def socketIoCorsOrigin (allowedOrigins : List String) :
    Option String → CorsDecision
  | none => .allow
  | some origin =>
    if origin == "" then .allow
    else if allowedOrigins.contains origin then .allow
    else .blocked "Not allowed by CORS"

/-- The HTTP middleware CORS origin callback (src/unnamed/part_000, lines
83-93): identical guard — falsy origin accepted, otherwise allow-list
membership required. -/
def httpCorsOrigin (allowedOrigins : List String) :
    Option String → CorsDecision
  | none => .allow
  | some origin =>
    if origin == "" then .allow
    else if allowedOrigins.contains origin then .allow
    else .blocked "Not allowed by CORS"

/-- The hardcoded fallback allow-list used when CORS_ORIGINS is unset. -/
def defaultAllowedOrigins : List String :=
  ["http://localhost:5173", "http://localhost:8080", "http://localhost:3000"]

/-- The in-memory `connectedUsers` Map tracking presence: insertion-ordered
association list from userId to socket id (JavaScript Map iteration order). -/
abbrev PresenceMap := List (String × String)

/-- `connectedUsers.has(userId)`. -/
def mapHas (m : PresenceMap) (k : String) : Bool :=
  match m with
  | [] => false
  | (k', _) :: rest => if k' = k then true else mapHas rest k

/-- `connectedUsers.get(userId)`. -/
def mapGet (m : PresenceMap) (k : String) : Option String :=
  match m with
  | [] => none
  | (k', v) :: rest => if k' = k then some v else mapGet rest k

/-- `connectedUsers.set(userId, socketId)`: update the existing entry in
place (Map keeps its insertion position) or append a new entry. -/
def mapSet (m : PresenceMap) (k v : String) : PresenceMap :=
  match m with
  | [] => [(k, v)]
  | (k', v') :: rest =>
    if k' = k then (k, v) :: rest else (k', v') :: mapSet rest k v

/-- `connectedUsers.delete(userId)`: remove the first entry with this key. -/
def mapDelete (m : PresenceMap) (k : String) : PresenceMap :=
  match m with
  | [] => []
  | (k', v') :: rest =>
    if k' = k then rest else (k', v') :: mapDelete rest k

/-- The `join-user-room` handler (src/unnamed/part_000, lines 117-136),
restricted to its effect on `connectedUsers`: when the userId is already
mapped to a different socket id, overwrite the mapping (reconnect); when it
is mapped to the same socket id, leave the map unchanged; otherwise insert
the new mapping. -/
def joinUserRoom (m : PresenceMap) (userId socketId : String) : PresenceMap :=
  if mapHas m userId then
    if mapGet m userId ≠ some socketId then mapSet m userId socketId else m
  else
    mapSet m userId socketId

/-- The scan of the `disconnect` handler: the first userId (in Map iteration
order) whose stored socket id equals the disconnecting socket's id. -/
def firstUserOfSocket (m : PresenceMap) (socketId : String) : Option String :=
  match m with
  | [] => none
  | (u, s) :: rest =>
    if s = socketId then some u else firstUserOfSocket rest socketId

/-- The `disconnect` handler (src/unnamed/part_000, lines 156-165): iterate
the entries, delete the first one whose socket id matches, then break; when
no entry matches, the map is untouched. -/
def disconnectCleanup (m : PresenceMap) (socketId : String) : PresenceMap :=
  match firstUserOfSocket m socketId with
  | none => m
  | some u => mapDelete m u

/-- Number of presence entries recorded for a given userId. -/
def countKey (m : PresenceMap) (k : String) : Nat :=
  (m.filter (fun e => e.1 == k)).length

/-- Outcome of `runCleanupNow()` as observed by the cleanup endpoint: the
promise resolves with a result, or rejects with an Error whose message the
catch block reads. -/
inductive CleanupOutcome where
  | ok : String → CleanupOutcome
  | err : String → CleanupOutcome
deriving DecidableEq, Repr

/-- A JSON response of the server file's handlers, with the `error` field
that a body may or may not carry, plus what `console.error` logged. -/
structure ApiResponse where
  status : Nat
  success : Bool
  message : String
  result : Option String
  bodyError : Option String
  loggedError : Option String
deriving DecidableEq, Repr

/-- The `POST /api/cleanup-now` handler (src/unnamed/part_000, lines
190-208): on success a 200 `{success, message, result}` body; on failure a
500 body that carries the Error's message in its `error` field, besides
logging it. -/
def cleanupNowHandler : CleanupOutcome → ApiResponse
  | .ok r =>
    { status := 200, success := true, message := "Cleanup completed successfully"
      result := some r, bodyError := none, loggedError := none }
  | .err m =>
    { status := 500, success := false, message := "Cleanup failed"
      result := none, bodyError := some m, loggedError := some m }

/-- The catch block of `GET /:department`
(src/routes/departmentPermissions.ts, lines 62-68): a storage error is
logged server-side and answered with a 500 body holding only a generic
message — no error detail in the body. -/
def departmentPermissionsGetCatch (errDetail : String) : ApiResponse :=
  { status := 500, success := false
    message := "Failed to fetch department permissions"
    result := none, bodyError := none, loggedError := some errDetail }

/-! ## Store lemmas -/

/-- After an upsert for a department, looking that department up finds
exactly the upserted record. -/
theorem findOne_upsert (store : Store) (d : String) (e : PermEntry) :
    findOne (upsert store d e) d = some e := by
  induction store with
  | nil => simp [upsert, findOne]
  | cons head rest ih =>
    obtain ⟨k, e'⟩ := head
    by_cases hk : k = d
    · subst hk
      simp [upsert, findOne]
    · simp [upsert, findOne, hk, ih]

/-- A fields-only update rewrites the permissions of the record found for
that department and touches nothing else at that key. -/
theorem findOne_updateFields (store : Store) (d : String) (entry : PermEntry)
    (p : PermFields) (h : findOne store d = some entry) :
    findOne (updateFields store d p) d = some { entry with perms := p } := by
  induction store with
  | nil => simp [findOne] at h
  | cons head rest ih =>
    obtain ⟨k, e'⟩ := head
    by_cases hk : k = d
    · subst hk
      simp [findOne] at h
      subst h
      simp [updateFields, findOne]
    · simp [findOne, hk] at h
      simp [updateFields, findOne, hk, ih h]

/-! ## Claim theorems for the permissions routes -/

/-- Claim C1: for a department with no stored record, the GET handler
responds 200/success with all five flags false and performs no write. -/
theorem c1_get_unknown_department (store : Store) (d : String)
    (h : findOne store d = none) :
    (getDepartment store d).status = 200 ∧
    (getDepartment store d).success = true ∧
    (getDepartment store d).perms =
      { myRequirements := .vBool false, manageLocation := .vBool false
        myCalendar := .vBool false, allEvents := .vBool false
        taggedDepartments := .vBool false } ∧
    (getDepartment store d).storeAfter = store := by
  unfold getDepartment
  rw [h]
  exact ⟨rfl, rfl, rfl, rfl⟩

/-- Witness for C1 at a concrete store holding an unrelated department. -/
theorem c1_get_unknown_department_witness :
    (getDepartment [("HR", { perms := defaultPerms, updatedBy := none })]
        "Engineering").status = 200 ∧
    (getDepartment [("HR", { perms := defaultPerms, updatedBy := none })]
        "Engineering").success = true ∧
    (getDepartment [("HR", { perms := defaultPerms, updatedBy := none })]
        "Engineering").perms =
      { myRequirements := .vBool false, manageLocation := .vBool false
        myCalendar := .vBool false, allEvents := .vBool false
        taggedDepartments := .vBool false } ∧
    (getDepartment [("HR", { perms := defaultPerms, updatedBy := none })]
        "Engineering").storeAfter =
      [("HR", { perms := defaultPerms, updatedBy := none })] :=
  c1_get_unknown_department
    [("HR", { perms := defaultPerms, updatedBy := none })] "Engineering"
    (by decide)

/-- Claim C2: a PUT whose payload is not an object, or whose
myRequirements, manageLocation or myCalendar is not a boolean, is rejected
with a 400 validation message and the store is left untouched. -/
theorem c2_put_invalid_rejected (store : Store) (d uid : String)
    (p : PermPayload)
    (h : ∀ f : PermFields, p = PermPayload.obj f →
      f.myRequirements.isBoolean = false ∨ f.manageLocation.isBoolean = false ∨
      f.myCalendar.isBoolean = false) :
    ∃ msg, putDepartment store d p uid = (PutResult.badRequest msg, store) := by
  cases p with
  | prim v => exact ⟨"Invalid permissions data", rfl⟩
  | obj f =>
    refine ⟨"Permission values must be boolean", ?_⟩
    have hcond : (!f.myRequirements.isBoolean || !f.manageLocation.isBoolean
        || !f.myCalendar.isBoolean) = true := by
      rcases h f rfl with h1 | h1 | h1 <;> simp [h1]
    simp [putDepartment, hcond]

/-- Witness for C2: a payload whose myCalendar is absent is rejected and
the (empty) store is unchanged. -/
theorem c2_put_invalid_rejected_witness :
    ∃ msg, putDepartment [] "Engineering"
      (PermPayload.obj
        { myRequirements := .vBool true, manageLocation := .vBool true
          myCalendar := .vUndefined, allEvents := .vUndefined
          taggedDepartments := .vUndefined })
      "user-1" = (PutResult.badRequest msg, []) :=
  c2_put_invalid_rejected [] "Engineering" "user-1" _
    (by
      intro f hf
      injection hf with hf'
      subst hf'
      right; right; rfl)

/-- Claim C5: the DELETE (reset) handler always stores a record for the
department whose five flags are all true, recording the updater, for every
prior store state. -/
theorem c5_reset_all_true (store : Store) (d uid : String) :
    (deleteDepartment store d uid).1.perms.myRequirements = .vBool true ∧
    (deleteDepartment store d uid).1.perms.manageLocation = .vBool true ∧
    (deleteDepartment store d uid).1.perms.myCalendar = .vBool true ∧
    (deleteDepartment store d uid).1.perms.allEvents = .vBool true ∧
    (deleteDepartment store d uid).1.perms.taggedDepartments = .vBool true ∧
    (deleteDepartment store d uid).1.updatedBy = some uid ∧
    findOne (deleteDepartment store d uid).2 d =
      some (deleteDepartment store d uid).1 :=
  ⟨rfl, rfl, rfl, rfl, rfl, rfl, findOne_upsert store d _⟩

/-! ## Claim theorems for the server file -/

/-- Claim C9: both CORS callbacks accept a request with no Origin header
unconditionally, whatever the allow-list; the allow-list is consulted only
when a (non-empty) Origin value is present. -/
theorem c9_cors_no_origin_accepted (allowedOrigins : List String) :
    socketIoCorsOrigin allowedOrigins none = .allow ∧
    httpCorsOrigin allowedOrigins none = .allow ∧
    ∀ o : String, o ≠ "" →
      ((socketIoCorsOrigin allowedOrigins (some o) = .allow ↔
          o ∈ allowedOrigins) ∧
       (httpCorsOrigin allowedOrigins (some o) = .allow ↔
          o ∈ allowedOrigins)) := by
  refine ⟨rfl, rfl, fun o ho => ?_⟩
  have hne : (o == "") = false := by simpa using ho
  by_cases hm : o ∈ allowedOrigins
  · have hc : allowedOrigins.contains o = true := by simpa using hm
    simp [socketIoCorsOrigin, httpCorsOrigin, hne, hc, hm]
  · have hc : allowedOrigins.contains o = false := by simpa using hm
    simp [socketIoCorsOrigin, httpCorsOrigin, hne, hc, hm]

/-- Witness for C9: with the hardcoded fallback allow-list, an absent
origin is accepted by both layers while an unlisted origin is not. -/
theorem c9_cors_no_origin_accepted_witness :
    socketIoCorsOrigin defaultAllowedOrigins none = .allow ∧
    httpCorsOrigin defaultAllowedOrigins none = .allow ∧
    (socketIoCorsOrigin defaultAllowedOrigins (some "http://evil.example")
        = .allow ↔ "http://evil.example" ∈ defaultAllowedOrigins) := by
  have h := c9_cors_no_origin_accepted defaultAllowedOrigins
  exact ⟨h.1, h.2.1, (h.2.2 "http://evil.example" (by decide)).1⟩

/-- Claim C10: a PUT whose three mandatory fields are booleans but whose
allEvents is a truthy non-boolean (a non-empty string) passes validation
and stores that raw value unchanged, so the stored field is not a boolean. -/
theorem c10_truthy_nonboolean_optional_stored (store : Store) (d uid : String)
    (f : PermFields) (b1 b2 b3 : Bool) (s : String)
    (h1 : f.myRequirements = .vBool b1) (h2 : f.manageLocation = .vBool b2)
    (h3 : f.myCalendar = .vBool b3) (h4 : f.allEvents = .vStr s)
    (h5 : s ≠ "") :
    ∃ e : PermEntry,
      putDepartment store d (.obj f) uid = (.ok e, upsert store d e) ∧
      e.perms.allEvents = .vStr s ∧
      e.perms.allEvents.isBoolean = false := by
  have hs : (s == "") = false := by simpa using h5
  refine ⟨{ perms := { myRequirements := f.myRequirements,
                       manageLocation := f.manageLocation,
                       myCalendar := f.myCalendar,
                       allEvents := .vStr s,
                       taggedDepartments := jsOrFalse f.taggedDepartments },
            updatedBy := some uid }, ?_, rfl, rfl⟩
  simp [putDepartment, h1, h2, h3, h4, JSValue.isBoolean, jsOrFalse,
    JSValue.truthy, hs]

/-- Witness for C10: allEvents set to the string "yes" is stored verbatim. -/
theorem c10_truthy_nonboolean_optional_stored_witness :
    ∃ e : PermEntry,
      putDepartment [] "Engineering"
        (PermPayload.obj
          { myRequirements := .vBool true, manageLocation := .vBool false
            myCalendar := .vBool true, allEvents := .vStr "yes"
            taggedDepartments := .vUndefined })
        "user-1" = (.ok e, upsert [] "Engineering" e) ∧
      e.perms.allEvents = .vStr "yes" ∧
      e.perms.allEvents.isBoolean = false :=
  c10_truthy_nonboolean_optional_stored [] "Engineering" "user-1" _
    true false true "yes" rfl rfl rfl rfl (by decide)

/-- Counterexample to claim C8 as stated: a failed manual cleanup run does
put the error detail in the response body — its `error` field carries the
Error's message, so the detail is not server-side-only. -/
theorem c8_counterexample_cleanup_body_detail :
    (cleanupNowHandler (.err "boom")).status = 500 ∧
    (cleanupNowHandler (.err "boom")).bodyError = some "boom" ∧
    (cleanupNowHandler (.err "boom")).bodyError ≠ none := by
  refine ⟨rfl, rfl, ?_⟩
  intro h
  simp [cleanupNowHandler] at h

/-- Claim C8 as amended: permissions-route storage failures answer 500 with
a generic message and no error detail in the body (the detail is only
logged); the manual cleanup endpoint returns a 200 {success, message,
result} body on success and a 500 body on failure whose `error` field
carries the error's message alongside the generic message. -/
theorem c8_amended_error_responses (errDetail result : String) :
    departmentPermissionsGetCatch errDetail =
      { status := 500, success := false
        message := "Failed to fetch department permissions"
        result := none, bodyError := none, loggedError := some errDetail } ∧
    cleanupNowHandler (.ok result) =
      { status := 200, success := true
        message := "Cleanup completed successfully"
        result := some result, bodyError := none, loggedError := none } ∧
    cleanupNowHandler (.err errDetail) =
      { status := 500, success := false, message := "Cleanup failed"
        result := none, bodyError := some errDetail
        loggedError := some errDetail } :=
  ⟨rfl, rfl, rfl⟩

/-! ## Claim C3: defaulting and backfill on read -/

/-- Inserting into the sorted list adds the inserted element and keeps the
others. -/
theorem mem_insertByDepartment (a x : String × PermEntry)
    (l : List (String × PermEntry)) (h : x ∈ insertByDepartment a l) :
    x = a ∨ x ∈ l := by
  induction l with
  | nil => simpa [insertByDepartment] using h
  | cons b rest ih =>
    cases hs : strLe a.1 b.1 with
    | true =>
      simp only [insertByDepartment, hs, if_true, List.mem_cons] at h
      rcases h with h | h | h
      · exact Or.inl h
      · exact Or.inr (by simp [h])
      · exact Or.inr (List.mem_cons_of_mem b h)
    | false =>
      simp only [insertByDepartment, hs, Bool.false_eq_true, if_false,
        List.mem_cons] at h
      rcases h with h | h
      · exact Or.inr (by simp [h])
      · rcases ih h with h' | h'
        · exact Or.inl h'
        · exact Or.inr (List.mem_cons_of_mem b h')

/-- Every record returned by the sorted all-departments read is literally a
stored record. -/
theorem mem_sortByDepartment (l : List (String × PermEntry))
    (x : String × PermEntry) (h : x ∈ sortByDepartment l) : x ∈ l := by
  induction l with
  | nil => simp [sortByDepartment] at h
  | cons a rest ih =>
    simp only [sortByDepartment] at h
    rcases mem_insertByDepartment a x _ h with h' | h'
    · exact h' ▸ List.mem_cons_self a rest
    · exact List.mem_cons_of_mem a (ih h')

/-- A pre-migration record whose original field myRequirements is absent:
the read neither defaults it to false nor writes anything back. -/
def legacyNoRequirements : PermEntry :=
  { perms :=
      { myRequirements := .vUndefined, manageLocation := .vBool true
        myCalendar := .vBool true, allEvents := .vBool true
        taggedDepartments := .vBool true }
    updatedBy := none }

/-- A pre-migration record missing the three newer fields. -/
def legacyNoNewFields : PermEntry :=
  { perms :=
      { myRequirements := .vBool true, manageLocation := .vBool true
        myCalendar := .vUndefined, allEvents := .vUndefined
        taggedDepartments := .vUndefined }
    updatedBy := none }

/-- Counterexample to claim C3 as stated: for a stored record whose
myRequirements field is missing, the single-department read returns the
field still absent (not false) and performs no backfill write; moreover the
all-departments read returns a record missing myCalendar entirely as
stored, with no defaulting. -/
theorem c3_counterexample_missing_field_kept :
    (getDepartment [("HR", legacyNoRequirements)] "HR").perms.myRequirements
        ≠ JSValue.vBool false ∧
    (getDepartment [("HR", legacyNoRequirements)] "HR").storeAfter =
      [("HR", legacyNoRequirements)] ∧
    (getAllDepartments [("IT", legacyNoNewFields)]).1 =
      [("IT", legacyNoNewFields)] := by
  decide

/-- Claim C3 as amended: on the single-department read, each of the three
newer fields (myCalendar, allEvents, taggedDepartments) that is missing
defaults to false and the merged fields are written back to the record; the
original fields myRequirements and manageLocation are returned exactly as
stored; the all-departments read returns stored records unchanged and
leaves the store untouched. -/
theorem c3_amended_newer_fields_backfilled (store : Store) (d : String)
    (entry : PermEntry) (h : findOne store d = some entry) :
    (getDepartment store d).perms.myRequirements =
        entry.perms.myRequirements ∧
    (getDepartment store d).perms.manageLocation =
        entry.perms.manageLocation ∧
    (getDepartment store d).perms.myCalendar =
        backfillField entry.perms.myCalendar ∧
    (getDepartment store d).perms.allEvents =
        backfillField entry.perms.allEvents ∧
    (getDepartment store d).perms.taggedDepartments =
        backfillField entry.perms.taggedDepartments ∧
    findOne (getDepartment store d).storeAfter d =
      some { entry with perms := (getDepartment store d).perms } ∧
    (getAllDepartments store).2 = store ∧
    (∀ x ∈ (getAllDepartments store).1, x ∈ store) := by
  unfold getDepartment
  rw [h]
  refine ⟨rfl, rfl, rfl, rfl, rfl, ?_, rfl,
    fun x hx => mem_sortByDepartment store x hx⟩
  show findOne
      (if backfillNeeded entry.perms then updateFields store d (backfillPerms entry.perms)
       else store) d = some { entry with perms := backfillPerms entry.perms }
  cases hn : backfillNeeded entry.perms with
  | true =>
    simp only [if_true]
    exact findOne_updateFields store d entry _ h
  | false =>
    simp only [Bool.false_eq_true, if_false]
    have hfields : backfillPerms entry.perms = entry.perms := by
      unfold backfillNeeded at hn
      simp only [Bool.or_eq_false_iff, decide_eq_false_iff_not] at hn
      obtain ⟨⟨n1, n2⟩, n3⟩ := hn
      unfold backfillPerms backfillField
      simp [n1, n2, n3]
    rw [hfields]
    exact h

/-- Witness for the amended C3 at a record missing the three newer fields. -/
theorem c3_amended_newer_fields_backfilled_witness :
    (getDepartment [("IT", legacyNoNewFields)] "IT").perms.myRequirements =
        legacyNoNewFields.perms.myRequirements ∧
    (getDepartment [("IT", legacyNoNewFields)] "IT").perms.manageLocation =
        legacyNoNewFields.perms.manageLocation ∧
    (getDepartment [("IT", legacyNoNewFields)] "IT").perms.myCalendar =
        backfillField legacyNoNewFields.perms.myCalendar ∧
    (getDepartment [("IT", legacyNoNewFields)] "IT").perms.allEvents =
        backfillField legacyNoNewFields.perms.allEvents ∧
    (getDepartment [("IT", legacyNoNewFields)] "IT").perms.taggedDepartments =
        backfillField legacyNoNewFields.perms.taggedDepartments ∧
    findOne (getDepartment [("IT", legacyNoNewFields)] "IT").storeAfter "IT" =
      some { legacyNoNewFields with
             perms := (getDepartment [("IT", legacyNoNewFields)] "IT").perms } ∧
    (getAllDepartments [("IT", legacyNoNewFields)]).2 =
        [("IT", legacyNoNewFields)] ∧
    (∀ x ∈ (getAllDepartments [("IT", legacyNoNewFields)]).1,
        x ∈ [("IT", legacyNoNewFields)]) :=
  c3_amended_newer_fields_backfilled [("IT", legacyNoNewFields)] "IT"
    legacyNoNewFields (by decide)

/-! ## Claim C4: set/get round trip -/

/-- On a payload field that is either absent or a boolean, the `|| false`
default yields exactly the boolean truthiness of the field. -/
theorem jsOrFalse_optional (v : JSValue)
    (h : v = .vUndefined ∨ ∃ b, v = .vBool b) :
    jsOrFalse v = .vBool v.truthy := by
  rcases h with h | ⟨b, h⟩
  · subst h; rfl
  · subst h; cases b <;> rfl

/-- Claim C4: a valid set (three mandatory booleans, optional fields absent
or boolean) followed by a get of the same department returns the written
payload with absent optional fields defaulted to false, and the get writes
nothing further. -/
theorem c4_set_get_roundtrip (store : Store) (d uid : String)
    (f : PermFields) (b1 b2 b3 : Bool)
    (h1 : f.myRequirements = .vBool b1) (h2 : f.manageLocation = .vBool b2)
    (h3 : f.myCalendar = .vBool b3)
    (h4 : f.allEvents = .vUndefined ∨ ∃ b, f.allEvents = .vBool b)
    (h5 : f.taggedDepartments = .vUndefined ∨ ∃ b, f.taggedDepartments = .vBool b) :
    ∃ e : PermEntry,
      putDepartment store d (.obj f) uid = (.ok e, upsert store d e) ∧
      e.perms = { myRequirements := .vBool b1, manageLocation := .vBool b2,
                  myCalendar := .vBool b3,
                  allEvents := .vBool f.allEvents.truthy,
                  taggedDepartments := .vBool f.taggedDepartments.truthy } ∧
      e.updatedBy = some uid ∧
      getDepartment (upsert store d e) d =
        { status := 200, success := true, perms := e.perms,
          storeAfter := upsert store d e } := by
  refine ⟨{ perms := { myRequirements := .vBool b1,
                       manageLocation := .vBool b2,
                       myCalendar := .vBool b3,
                       allEvents := .vBool f.allEvents.truthy,
                       taggedDepartments := .vBool f.taggedDepartments.truthy },
            updatedBy := some uid }, ?_, rfl, rfl, ?_⟩
  · have hcond : (!f.myRequirements.isBoolean || !f.manageLocation.isBoolean
        || !f.myCalendar.isBoolean) = false := by
      simp [h1, h2, h3, JSValue.isBoolean]
    simp only [putDepartment, hcond, Bool.false_eq_true, if_false,
      Prod.mk.injEq, PutResult.ok.injEq]
    constructor
    · simp [h1, h2, h3, jsOrFalse_optional f.allEvents h4,
        jsOrFalse_optional f.taggedDepartments h5]
    · congr 1
      simp [h1, h2, h3, jsOrFalse_optional f.allEvents h4,
        jsOrFalse_optional f.taggedDepartments h5]
  · unfold getDepartment
    rw [findOne_upsert]
    rfl

/-- Witness for C4: the Engineering example — setting {myRequirements:true,
manageLocation:false, myCalendar:true} stores allEvents:false and
taggedDepartments:false, and the subsequent get returns exactly that. -/
theorem c4_set_get_roundtrip_witness :
    ∃ e : PermEntry,
      putDepartment [] "Engineering"
        (.obj { myRequirements := .vBool true, manageLocation := .vBool false,
                myCalendar := .vBool true, allEvents := .vUndefined,
                taggedDepartments := .vUndefined }) "user-1"
        = (.ok e, upsert [] "Engineering" e) ∧
      e.perms = { myRequirements := .vBool true,
                  manageLocation := .vBool false,
                  myCalendar := .vBool true, allEvents := .vBool false,
                  taggedDepartments := .vBool false } ∧
      e.updatedBy = some "user-1" ∧
      getDepartment (upsert [] "Engineering" e) "Engineering" =
        { status := 200, success := true, perms := e.perms,
          storeAfter := upsert [] "Engineering" e } :=
  c4_set_get_roundtrip [] "Engineering" "user-1"
    { myRequirements := .vBool true, manageLocation := .vBool false,
      myCalendar := .vBool true, allEvents := .vUndefined,
      taggedDepartments := .vUndefined }
    true false true rfl rfl rfl (Or.inl rfl) (Or.inl rfl)

/-! ## Presence map lemmas -/

/-- Setting a key makes lookup of that key return the new value. -/
theorem mapGet_mapSet (m : PresenceMap) (k v : String) :
    mapGet (mapSet m k v) k = some v := by
  induction m with
  | nil => simp [mapSet, mapGet]
  | cons head rest ih =>
    obtain ⟨k', v'⟩ := head
    by_cases hk : k' = k
    · subst hk; simp [mapSet, mapGet]
    · simp [mapSet, mapGet, hk, ih]

/-- Setting a key makes the map contain that key. -/
theorem mapHas_mapSet (m : PresenceMap) (k v : String) :
    mapHas (mapSet m k v) k = true := by
  induction m with
  | nil => simp [mapSet, mapHas]
  | cons head rest ih =>
    obtain ⟨k', v'⟩ := head
    by_cases hk : k' = k
    · subst hk; simp [mapSet, mapHas]
    · simp [mapSet, mapHas, hk, ih]

/-- The keys after a set are the old keys plus possibly the set key. -/
theorem keys_mapSet_subset (m : PresenceMap) (k v x : String)
    (h : x ∈ (mapSet m k v).map Prod.fst) :
    x = k ∨ x ∈ m.map Prod.fst := by
  induction m with
  | nil => simpa [mapSet] using h
  | cons head rest ih =>
    obtain ⟨k', v'⟩ := head
    by_cases hk : k' = k
    · subst hk
      simpa [mapSet] using h
    · simp only [mapSet, hk, if_false, List.map_cons, List.mem_cons] at h
      rcases h with h | h
      · exact Or.inr (by simp [h])
      · rcases ih h with h' | h'
        · exact Or.inl h'
        · exact Or.inr (by simp [h'])

/-- A set never duplicates keys: key uniqueness is preserved. -/
theorem nodupKeys_mapSet (m : PresenceMap) (k v : String)
    (h : (m.map Prod.fst).Nodup) : ((mapSet m k v).map Prod.fst).Nodup := by
  induction m with
  | nil => simp [mapSet]
  | cons head rest ih =>
    obtain ⟨k', v'⟩ := head
    simp only [List.map_cons, List.nodup_cons] at h
    by_cases hk : k' = k
    · subst hk
      simpa [mapSet] using h
    · simp only [mapSet, hk, if_false, List.map_cons, List.nodup_cons]
      refine ⟨fun hx => ?_, ih h.2⟩
      rcases keys_mapSet_subset rest k v k' hx with h' | h'
      · exact hk h'
      · exact h.1 h'

/-- A key outside the key set has no entries counted. -/
theorem countKey_eq_zero (m : PresenceMap) (k : String)
    (h : k ∉ m.map Prod.fst) : countKey m k = 0 := by
  induction m with
  | nil => rfl
  | cons head rest ih =>
    obtain ⟨k', v'⟩ := head
    simp only [List.map_cons, List.mem_cons] at h
    push_neg at h
    have hne : (k' == k) = false := by
      simp [Ne.symm h.1]
    simp only [countKey, List.filter_cons, hne, Bool.false_eq_true, if_false]
    exact ih h.2

/-- Under unique keys, a key is counted once when present and zero times
otherwise. -/
theorem countKey_of_nodup (m : PresenceMap) (k : String)
    (h : (m.map Prod.fst).Nodup) :
    countKey m k = if mapHas m k then 1 else 0 := by
  induction m with
  | nil => rfl
  | cons head rest ih =>
    obtain ⟨k', v'⟩ := head
    simp only [List.map_cons, List.nodup_cons] at h
    by_cases hk : k' = k
    · subst hk
      have : countKey rest k' = 0 := countKey_eq_zero rest k' h.1
      simp [countKey, mapHas, List.filter_cons, this] at *
      simpa [countKey] using this
    · have hne : (k' == k) = false := by simp [hk]
      simp only [countKey, List.filter_cons, hne, Bool.false_eq_true, if_false,
        mapHas, hk]
      exact ih h.2

/-- A successful lookup implies the key is present. -/
theorem mapHas_of_mapGet (m : PresenceMap) (k v : String)
    (h : mapGet m k = some v) : mapHas m k = true := by
  induction m with
  | nil => simp [mapGet] at h
  | cons head rest ih =>
    obtain ⟨k', v'⟩ := head
    by_cases hk : k' = k
    · subst hk; simp [mapHas]
    · simp only [mapGet, hk, if_false] at h
      simp [mapHas, hk, ih h]

/-- A join always leaves the userId mapped to the joining socket id. -/
theorem mapGet_joinUserRoom (m : PresenceMap) (u s : String) :
    mapGet (joinUserRoom m u s) u = some s := by
  unfold joinUserRoom
  by_cases hh : mapHas m u = true
  · by_cases hg : mapGet m u = some s
    · simp [hh, hg]
    · simp [hh, hg, mapGet_mapSet]
  · simp only [Bool.not_eq_true] at hh
    simp [hh, mapGet_mapSet]

/-- A join preserves key uniqueness of the presence map. -/
theorem nodupKeys_joinUserRoom (m : PresenceMap) (u s : String)
    (h : (m.map Prod.fst).Nodup) :
    ((joinUserRoom m u s).map Prod.fst).Nodup := by
  unfold joinUserRoom
  by_cases hh : mapHas m u = true
  · by_cases hg : mapGet m u = some s
    · simpa [hh, hg] using h
    · simpa [hh, hg] using nodupKeys_mapSet m u s h
  · simp only [Bool.not_eq_true] at hh
    simpa [hh] using nodupKeys_mapSet m u s h

/-- Under unique keys, a join leaves exactly one entry for the userId. -/
theorem countKey_joinUserRoom (m : PresenceMap) (u s : String)
    (h : (m.map Prod.fst).Nodup) : countKey (joinUserRoom m u s) u = 1 := by
  have hn := nodupKeys_joinUserRoom m u s h
  rw [countKey_of_nodup _ _ hn,
    mapHas_of_mapGet _ u s (mapGet_joinUserRoom m u s)]
  rfl

/-- A repeated join from the socket id already recorded is a no-op. -/
theorem joinUserRoom_noop (m : PresenceMap) (u s : String)
    (h : mapGet m u = some s) : joinUserRoom m u s = m := by
  unfold joinUserRoom
  rw [mapHas_of_mapGet m u s h]
  simp [h]

/-- Claim C6: after any nonempty sequence of join-user-room events for a
userId ending with socket id s, a key-unique presence map holds exactly one
entry for that userId, mapped to s (last write wins), and a repeated join
from that same socket id leaves the map unchanged. -/
theorem c6_presence_last_write_wins (m : PresenceMap) (u : String)
    (joins : List String) (s : String)
    (hnd : (m.map Prod.fst).Nodup) :
    countKey ((joins ++ [s]).foldl (fun acc x => joinUserRoom acc u x) m) u
      = 1 ∧
    mapGet ((joins ++ [s]).foldl (fun acc x => joinUserRoom acc u x) m) u
      = some s ∧
    joinUserRoom ((joins ++ [s]).foldl (fun acc x => joinUserRoom acc u x) m)
        u s
      = (joins ++ [s]).foldl (fun acc x => joinUserRoom acc u x) m := by
  induction joins generalizing m with
  | nil =>
    simp only [List.nil_append, List.foldl_cons, List.foldl_nil]
    exact ⟨countKey_joinUserRoom m u s hnd, mapGet_joinUserRoom m u s,
      joinUserRoom_noop _ u s (mapGet_joinUserRoom m u s)⟩
  | cons a rest ih =>
    simp only [List.cons_append, List.foldl_cons]
    exact ih (joinUserRoom m u a) (nodupKeys_joinUserRoom m u a hnd)

/-- Witness for C6: user-1 joins from sock-1 then reconnects from sock-2 on
an initially empty map. -/
theorem c6_presence_last_write_wins_witness :
    countKey ((["sock-1"] ++ ["sock-2"]).foldl
        (fun acc x => joinUserRoom acc "user-1" x) []) "user-1" = 1 ∧
    mapGet ((["sock-1"] ++ ["sock-2"]).foldl
        (fun acc x => joinUserRoom acc "user-1" x) []) "user-1"
      = some "sock-2" ∧
    joinUserRoom ((["sock-1"] ++ ["sock-2"]).foldl
        (fun acc x => joinUserRoom acc "user-1" x) []) "user-1" "sock-2"
      = (["sock-1"] ++ ["sock-2"]).foldl
          (fun acc x => joinUserRoom acc "user-1" x) [] :=
  c6_presence_last_write_wins [] "user-1" ["sock-1"] "sock-2" (by simp)

/-- When no entry carries the disconnecting socket id, the scan finds
nothing. -/
theorem firstUserOfSocket_eq_none (m : PresenceMap) (c : String)
    (h : ∀ e ∈ m, e.2 ≠ c) : firstUserOfSocket m c = none := by
  induction m with
  | nil => rfl
  | cons head rest ih =>
    obtain ⟨u, s⟩ := head
    have hs : s ≠ c := h (u, s) (by simp)
    simp only [firstUserOfSocket, hs, if_false]
    exact ih (fun e he => h e (List.mem_cons_of_mem _ he))

/-- The scan returns the userId of the first entry carrying the socket id. -/
theorem firstUserOfSocket_append (pre : PresenceMap) (u c : String)
    (post : PresenceMap) (hpre : ∀ e ∈ pre, e.2 ≠ c) :
    firstUserOfSocket (pre ++ (u, c) :: post) c = some u := by
  induction pre with
  | nil => simp [firstUserOfSocket]
  | cons head rest ih =>
    obtain ⟨u', s'⟩ := head
    have hs : s' ≠ c := hpre (u', s') (by simp)
    simp only [List.cons_append, firstUserOfSocket, hs, if_false]
    exact ih (fun e he => hpre e (List.mem_cons_of_mem _ he))

/-- Deleting a key that occurs only at the split point drops exactly that
cell. -/
theorem mapDelete_append (pre : PresenceMap) (u v : String)
    (post : PresenceMap) (hu : u ∉ pre.map Prod.fst) :
    mapDelete (pre ++ (u, v) :: post) u = pre ++ post := by
  induction pre with
  | nil => simp [mapDelete]
  | cons head rest ih =>
    obtain ⟨u', v'⟩ := head
    simp only [List.map_cons, List.mem_cons] at hu
    push_neg at hu
    simp only [List.cons_append, mapDelete, Ne.symm hu.1, if_false]
    exact congrArg (List.cons (u', v')) (ih hu.2)

/-- Claim C7: the disconnect handler removes at most one presence entry —
none when no entry carries the disconnecting socket id, and exactly the
first matching entry otherwise, leaving every other entry (including later
entries with the same socket id) unchanged. -/
theorem c7_disconnect_removes_first (m pre post : PresenceMap) (u c : String)
    (hnomatch : ∀ e ∈ m, e.2 ≠ c)
    (hpre : ∀ e ∈ pre, e.2 ≠ c)
    (hnd : ((pre ++ (u, c) :: post).map Prod.fst).Nodup) :
    disconnectCleanup m c = m ∧
    disconnectCleanup (pre ++ (u, c) :: post) c = pre ++ post := by
  constructor
  · unfold disconnectCleanup
    rw [firstUserOfSocket_eq_none m c hnomatch]
  · unfold disconnectCleanup
    rw [firstUserOfSocket_append pre u c post hpre]
    have hu : u ∉ pre.map Prod.fst := by
      intro hmem
      rw [List.map_append] at hnd
      exact (List.nodup_append.mp hnd).2.2 hmem (by simp)
    exact mapDelete_append pre u c post hu

/-- Witness for C7: disconnecting sock-2 from a three-entry map removes
only user-b's entry and keeps user-x's later sock-2 entry. -/
theorem c7_disconnect_removes_first_witness :
    disconnectCleanup [("user-a", "sock-1")] "sock-2" =
      [("user-a", "sock-1")] ∧
    disconnectCleanup
        ([("user-a", "sock-1")] ++ ("user-b", "sock-2")
          :: [("user-x", "sock-2")]) "sock-2" =
      [("user-a", "sock-1")] ++ [("user-x", "sock-2")] :=
  c7_disconnect_removes_first [("user-a", "sock-1")] [("user-a", "sock-1")]
    [("user-x", "sock-2")] "user-b" "sock-2"
    (by decide) (by decide) (by decide)
